import Mathlib

/-!
Verification development for the `DictionaryArray` component of Apache Arrow
(`cpp/src/arrow/array/array_dict.h`).

The repository provides only the header (declarations and doc comments); the
method bodies live in `array_dict.cc`, which is not part of the sources.  The
definitions below are therefore modelled from the specification (`spec.md`),
which describes the behaviour of each declared operation.  Machine integers
are modelled as `Nat` raw two's-complement storage together with an explicit
sign-extension function; arrays are lists of optional cells (a `none` cell is
a null); object identity (`shared_ptr` identity) is modelled by an explicit
object id.
-/

namespace ArrowDict

/-- Modelled from the spec: the supported signed integer index widths of a
`DictionaryType` (8-, 16-, 32- and 64-bit signed), cf. spec §4.1
"GetValueIndex" and the header's `DictionaryType` usage. -/
inductive IndexWidth where
  | w8 : IndexWidth
  | w16 : IndexWidth
  | w32 : IndexWidth
  | w64 : IndexWidth
deriving DecidableEq, Repr

/-- Number of bits of an index width. -/
def IndexWidth.bits : IndexWidth → Nat
  | .w8 => 8
  | .w16 => 16
  | .w32 => 32
  | .w64 => 64

/-- Every supported width is positive. -/
theorem IndexWidth.bits_pos (w : IndexWidth) : 0 < w.bits := by
  cases w <;> simp [IndexWidth.bits]

/-- Sign extension: interpret a raw two's-complement stored value
`raw ∈ [0, 2^w)` of width `w` as a (64-bit-representable) signed integer. -/
def toSigned (w : Nat) (raw : Nat) : Int :=
  if raw < 2 ^ (w - 1) then (raw : Int) else (raw : Int) - 2 ^ w

/-- Narrowing/widening write: store a signed integer as a raw two's-complement
value of width `w` (wrapping conversion). -/
def toRaw (w : Nat) (v : Int) : Nat := (v % (2 : Int) ^ w).toNat

/-- Modelled from the spec: a `DictionaryType` describes the integer width of
the indices, the value type of dictionary entries, and the ordered flag
(spec §3).  Value types are abstracted as identifiers. -/
structure DictionaryType where
  indexType : IndexWidth
  valueType : Nat
  ordered : Bool
deriving DecidableEq, Repr

/-- Modelled from the spec: the indices array — a typed fixed-width integer
array with a null bitmap.  A cell is `none` when null, otherwise the raw
two's-complement stored value (spec §3, §6). -/
structure IndicesArray where
  elemType : IndexWidth
  cells : List (Option Nat)
deriving DecidableEq, Repr

/-- Modelled from the spec: a dictionary array object.  `oid` models
`shared_ptr` object identity ("identical shared object", spec §4.1);
`vals` are the dictionary entries (a `none` entry is a null dictionary
entry); values are abstracted as integers. -/
structure DictArrayObj where
  oid : Nat
  valueType : Nat
  vals : List (Option Int)
deriving DecidableEq, Repr

/-- Modelled from the spec: a `DictionaryArray` holds its `DictionaryType`,
its indices array and its dictionary (spec §3). -/
structure DictionaryArray where
  dictType : DictionaryType
  indices : IndicesArray
  dict : DictArrayObj
deriving DecidableEq, Repr

/-- Error kinds surfaced by the fallible operations (spec §7). -/
inductive Err where
  | typeMismatch : Err
  | invalidIndex : Err
  | outOfMemory : Err
deriving DecidableEq, Repr

/-- Range check of one indices cell during `FromArrays` validation: a null
cell is skipped; a non-null cell must be non-negative and smaller than the
dictionary length when interpreted as a signed integer (spec §4.1). -/
def rangeOK (w len : Nat) : Option Nat → Bool
  | none => true
  | some raw => decide (0 ≤ toSigned w raw) && decide (toSigned w raw < (len : Int))

/-- Well-formedness of one stored cell: the raw value fits the declared
width and is a valid dictionary index. -/
def cellOK (w len : Nat) : Option Nat → Bool
  | none => true
  | some raw =>
      decide (raw < 2 ^ w) && decide (0 ≤ toSigned w raw) &&
        decide (toSigned w raw < (len : Int))

/-- Validity invariant of a constructed `DictionaryArray` (spec §3
invariants 1–3): index/value types agree with the declared type and every
non-null index is in `[0, len(dictionary))`. -/
def DictionaryArray.valid (A : DictionaryArray) : Prop :=
  A.indices.elemType = A.dictType.indexType ∧
    A.dict.valueType = A.dictType.valueType ∧
    A.indices.cells.all (cellOK A.indices.elemType.bits A.dict.vals.length) = true

instance (A : DictionaryArray) : Decidable A.valid := by
  unfold DictionaryArray.valid; infer_instance

/-- Modelled from the spec: `DictionaryArray::FromArrays` (declared in
`array_dict.h`, body in the missing `array_dict.cc`).  Checks that the
indices element type is exactly the declared index type and that the
dictionary value type is compatible with the declared value type
(`TypeMismatch` otherwise), then scans every indices cell, skipping nulls,
failing with `InvalidIndex` on any out-of-range entry; on success returns
the array wrapping the given indices and dictionary (spec §4.1). -/
def fromArrays (ty : DictionaryType) (idx : IndicesArray) (dict : DictArrayObj) :
    Except Err DictionaryArray :=
  if idx.elemType ≠ ty.indexType then .error .typeMismatch
  else if dict.valueType ≠ ty.valueType then .error .typeMismatch
  else if idx.cells.all (rangeOK idx.elemType.bits dict.vals.length) then
    .ok { dictType := ty, indices := idx, dict := dict }
  else .error .invalidIndex

/-- Modelled from the spec: the index-remapping core of
`DictionaryArray::Transpose` (body in the missing `array_dict.cc`): every
null stays null, and a non-null cell holding raw value `raw` becomes
`transposeMap[signed(raw)]` written at the result's declared width
(spec §4.1 "Behavior"). -/
def transposePure (A : DictionaryArray) (newType : DictionaryType)
    (newDict : DictArrayObj) (M : List Int) : DictionaryArray :=
  { dictType := newType,
    indices :=
      { elemType := newType.indexType,
        cells := A.indices.cells.map (fun c => c.map (fun raw =>
          toRaw newType.indexType.bits
            (M.getD (toSigned A.indices.elemType.bits raw).toNat 0))) },
    dict := newDict }

/-- Modelled from the spec: `DictionaryArray::Transpose` with its allocator.
The pool is modelled by whether the single buffer allocation succeeds; on
failure the allocation error is surfaced and no output array is produced.
The call also returns the (unchanged) source array, making the frame
condition of spec §4.1/§7 explicit. -/
def transpose (A : DictionaryArray) (newType : DictionaryType)
    (newDict : DictArrayObj) (M : List Int) (pool : Bool) :
    Except Err DictionaryArray × DictionaryArray :=
  if pool then (.ok (transposePure A newType newDict M), A)
  else (.error .outOfMemory, A)

/-- Modelled from the spec: `DictionaryArray::GetValueIndex` — the indices
cell at position `i`, sign-extended to a 64-bit signed integer (header doc:
"Return the ith value of indices, cast to int64_t"). -/
def DictionaryArray.getValueIndex (A : DictionaryArray) (i : Nat) : Int :=
  match A.indices.cells.getD i none with
  | some raw => toSigned A.indices.elemType.bits raw
  | none => 0

/-- Modelled from the spec: "one dictionary is element-wise identical to a
prefix of the other" (spec §4.1 "Comparability") in one direction.
Element-wise identity of arrays presupposes identical value types; a
value-type mismatch makes the dictionaries incomparable (spec: returns
false "including on any value-type mismatch"). -/
def dictDelta (d1 d2 : DictArrayObj) : Bool :=
  decide (d1.valueType = d2.valueType) &&
    (List.isPrefixOf d1.vals d2.vals || List.isPrefixOf d2.vals d1.vals)

/-- Modelled from the spec: `DictionaryArray::CanCompareIndices` (body in
the missing `array_dict.cc`): true iff both arrays use the same index
integer type and either the dictionaries are the identical shared object
or one is element-wise identical to a prefix of the other (spec §4.1). -/
def canCompareIndices (A B : DictionaryArray) : Bool :=
  decide (A.dictType.indexType = B.dictType.indexType) &&
    (decide (A.dict.oid = B.dict.oid) || dictDelta A.dict B.dict)

/-- Modelled from the spec: the per-instance state relevant to the lazy
`dictionary()` accessor — the underlying dictionary storage held in the
internal `ArrayData` block, and the mutable `dictionary_` cache member
(`array_dict.h` line 125, spec §3 "Lifecycle"). -/
structure DictInstState where
  storage : DictArrayObj
  cache : Option DictArrayObj
deriving DecidableEq, Repr

/-- Modelled from the spec: materialization of the wrapper array object over
the underlying dictionary storage, as performed on first access. -/
def materializeDict (s : DictInstState) : DictArrayObj := s.storage

/-- Modelled from the spec: one call to `DictionaryArray::dictionary()` —
returns the cached wrapper if present, otherwise materializes it from the
internal data block and caches it (spec §4.1 "Lazy dictionary accessor"). -/
def dictionaryCall (s : DictInstState) : DictArrayObj × DictInstState :=
  match s.cache with
  | some d => (d, s)
  | none => (materializeDict s, { s with cache := some (materializeDict s) })

/-- Status outcome of the deprecated `Status`-returning overloads. -/
inductive Status where
  | ok : Status
  | err : Err → Status
deriving DecidableEq, Repr

/-- The canonical adapter from a `Result`-returning operation to the
deprecated `(Status, out-parameter)` shape: on success the out parameter is
set and OK is returned; on failure the error is returned and the out
parameter stays unset. -/
def statusOfExcept : Except Err DictionaryArray → Status × Option DictionaryArray
  | .ok a => (.ok, some a)
  | .error e => (.err e, none)

/-- Modelled from the spec: the deprecated `Status`-returning overload of
`FromArrays` (`array_dict.h` lines 79–83); it performs the same validation
and reports through a status plus out parameter (spec §9 notes the dual
API is the same operation in two signatures). -/
def fromArraysStatus (ty : DictionaryType) (idx : IndicesArray)
    (dict : DictArrayObj) : Status × Option DictionaryArray :=
  if idx.elemType ≠ ty.indexType then (.err .typeMismatch, none)
  else if dict.valueType ≠ ty.valueType then (.err .typeMismatch, none)
  else if idx.cells.all (rangeOK idx.elemType.bits dict.vals.length) then
    (.ok, some { dictType := ty, indices := idx, dict := dict })
  else (.err .invalidIndex, none)

/-- Modelled from the spec: the deprecated `Status`-returning overload of
`Transpose` (`array_dict.h` lines 101–104), pool argument first as in the
header. -/
def transposeStatus (pool : Bool) (A : DictionaryArray)
    (newType : DictionaryType) (newDict : DictArrayObj) (M : List Int) :
    Status × Option DictionaryArray :=
  if pool then (.ok, some (transposePure A newType newDict M))
  else (.err .outOfMemory, none)

/-! ### Arithmetic facts about sign extension -/

theorem natCast_two_pow (w : Nat) : (((2 : Nat) ^ w : Nat) : Int) = (2 : Int) ^ w := by
  push_cast
  ring

/-- Sign extension of a stored value of width `w` lies in the signed range
`[-2^(w-1), 2^(w-1))`. -/
theorem toSigned_range (w raw : Nat) (hw : 0 < w) (h : raw < 2 ^ w) :
    -((2 : Int) ^ (w - 1)) ≤ toSigned w raw ∧ toSigned w raw < (2 : Int) ^ (w - 1) := by
  have hsplit : (2 : Int) ^ w = 2 * (2 : Int) ^ (w - 1) := by
    conv_lhs => rw [show w = (w - 1) + 1 by omega]
    rw [pow_succ]
    ring
  have hcast : (raw : Int) < (2 : Int) ^ w := by
    rw [← natCast_two_pow]
    exact_mod_cast h
  have hpos : (0 : Int) < (2 : Int) ^ (w - 1) := by positivity
  unfold toSigned
  split
  · rename_i h1
    have h1c : (raw : Int) < (2 : Int) ^ (w - 1) := by
      rw [← natCast_two_pow]
      exact_mod_cast h1
    have h0 : (0 : Int) ≤ (raw : Int) := Int.natCast_nonneg raw
    exact ⟨by linarith, h1c⟩
  · rename_i h1
    have h1c : (2 : Int) ^ (w - 1) ≤ (raw : Int) := by
      rw [← natCast_two_pow]
      exact_mod_cast Nat.le_of_not_lt h1
    exact ⟨by linarith, by linarith⟩

/-- Sign extension is inverse to reduction modulo `2^w`. -/
theorem toSigned_emod (w raw : Nat) (h : raw < 2 ^ w) :
    toSigned w raw % (2 : Int) ^ w = (raw : Int) := by
  have hcast : (raw : Int) < (2 : Int) ^ w := by
    rw [← natCast_two_pow]
    exact_mod_cast h
  have h0 : (0 : Int) ≤ (raw : Int) := Int.natCast_nonneg raw
  unfold toSigned
  split
  · exact Int.emod_eq_of_lt h0 hcast
  · rw [Int.sub_emod, Int.emod_self, sub_zero, Int.emod_emod_of_dvd _ dvd_rfl]
    exact Int.emod_eq_of_lt h0 hcast

/-- Writing back a sign-extended value at the same width restores the raw
stored value. -/
theorem toRaw_toSigned (w raw : Nat) (h : raw < 2 ^ w) :
    toRaw w (toSigned w raw) = raw := by
  unfold toRaw
  rw [toSigned_emod w raw h]
  exact Int.toNat_natCast raw

/-- Bridge between the boolean scan of `FromArrays` and the logical range
condition on non-null cells. -/
theorem all_rangeOK_iff (w len : Nat) (cells : List (Option Nat)) :
    cells.all (rangeOK w len) = true ↔
      ∀ raw, some raw ∈ cells →
        0 ≤ toSigned w raw ∧ toSigned w raw < (len : Int) := by
  rw [List.all_eq_true]
  constructor
  · intro h raw hm
    have := h _ hm
    simpa [rangeOK] using this
  · intro h c hm
    cases c with
    | none => simp [rangeOK]
    | some raw =>
        have := h raw hm
        simpa [rangeOK] using this

/-! ### Claim theorems -/

/-- Claim C1: for a `DictionaryType` whose declared types match the inputs,
`FromArrays` succeeds when every non-null index, interpreted as a signed
integer, lies in `[0, len(dictionary))`, and fails with `InvalidIndex` when
any non-null index is negative or `≥ len(dictionary)`; validation covers
every element and skips nulls. -/
theorem fromArrays_validation_sound (ty : DictionaryType) (idx : IndicesArray)
    (dict : DictArrayObj) (ht : idx.elemType = ty.indexType)
    (hd : dict.valueType = ty.valueType) :
    ((∀ raw, some raw ∈ idx.cells →
        0 ≤ toSigned idx.elemType.bits raw ∧
          toSigned idx.elemType.bits raw < (dict.vals.length : Int)) →
      fromArrays ty idx dict = .ok { dictType := ty, indices := idx, dict := dict }) ∧
    ((∃ raw, some raw ∈ idx.cells ∧
        ¬(0 ≤ toSigned idx.elemType.bits raw ∧
          toSigned idx.elemType.bits raw < (dict.vals.length : Int))) →
      fromArrays ty idx dict = .error .invalidIndex) := by
  unfold fromArrays
  rw [if_neg (by simp [ht]), if_neg (by simp [hd])]
  constructor
  · intro h
    rw [if_pos ((all_rangeOK_iff _ _ _).mpr h)]
  · rintro ⟨raw, hm, hbad⟩
    rw [if_neg]
    intro hall
    exact hbad ((all_rangeOK_iff _ _ _).mp hall raw hm)

/-- Claim C1 witness: a matching type with indices `[1, null, 0]` over a
2-element dictionary succeeds, and with indices `[5]` fails with
`InvalidIndex`. -/
theorem fromArrays_validation_sound_witness :
    fromArrays ⟨.w8, 0, false⟩ ⟨.w8, [some 1, none, some 0]⟩ ⟨0, 0, [some 7, some 8]⟩ =
        .ok ⟨⟨.w8, 0, false⟩, ⟨.w8, [some 1, none, some 0]⟩, ⟨0, 0, [some 7, some 8]⟩⟩ ∧
      fromArrays ⟨.w8, 0, false⟩ ⟨.w8, [some 5]⟩ ⟨0, 0, [some 7, some 8]⟩ =
        .error .invalidIndex := by
  constructor
  · exact (fromArrays_validation_sound ⟨.w8, 0, false⟩ ⟨.w8, [some 1, none, some 0]⟩
      ⟨0, 0, [some 7, some 8]⟩ rfl rfl).1 (by
        intro raw hm
        simp only [List.mem_cons, List.not_mem_nil, or_false, Option.some.injEq,
          reduceCtorEq, false_or] at hm
        rcases hm with h | h <;> subst h <;> decide)
  · exact (fromArrays_validation_sound ⟨.w8, 0, false⟩ ⟨.w8, [some 5]⟩
      ⟨0, 0, [some 7, some 8]⟩ rfl rfl).2 ⟨5, by decide, by decide⟩

/-- Claim C3: `FromArrays` fails with `TypeMismatch` whenever the indices
element type is not the declared index type or the dictionary value type is
incompatible with the declared value type, regardless of the index values. -/
theorem fromArrays_typeMismatch (ty : DictionaryType) (idx : IndicesArray)
    (dict : DictArrayObj)
    (h : idx.elemType ≠ ty.indexType ∨ dict.valueType ≠ ty.valueType) :
    fromArrays ty idx dict = .error .typeMismatch := by
  unfold fromArrays
  rcases h with h | h
  · rw [if_pos h]
  · by_cases h1 : idx.elemType ≠ ty.indexType
    · rw [if_pos h1]
    · rw [if_neg h1, if_pos h]

/-- Claim C3 witness: a 16-bit declared index type with 8-bit indices fails
with `TypeMismatch` even though every index is in range for the
dictionary. -/
theorem fromArrays_typeMismatch_witness :
    fromArrays ⟨.w16, 0, false⟩ ⟨.w8, [some 0]⟩ ⟨0, 0, [some 5]⟩ =
        .error .typeMismatch ∧
      ([some 0] : List (Option Nat)).all (rangeOK 8 1) = true := by
  exact ⟨fromArrays_typeMismatch ⟨.w16, 0, false⟩ ⟨.w8, [some 0]⟩ ⟨0, 0, [some 5]⟩
    (Or.inl (by decide)), by decide⟩

/-- Claim C5: for a well-formed stored cell, `GetValueIndex` returns the raw
indices element sign-extended to a signed integer: it is congruent to the
raw value modulo `2^w` and lies in the signed range of the index width, for
every supported width (the quantification over `A` covers all four). -/
theorem getValueIndex_signExtend (A : DictionaryArray) (p raw : Nat)
    (hw : raw < 2 ^ A.indices.elemType.bits)
    (hp : A.indices.cells.getD p none = some raw) :
    A.getValueIndex p = toSigned A.indices.elemType.bits raw ∧
      A.getValueIndex p % (2 : Int) ^ A.indices.elemType.bits = (raw : Int) ∧
      -((2 : Int) ^ (A.indices.elemType.bits - 1)) ≤ A.getValueIndex p ∧
      A.getValueIndex p < (2 : Int) ^ (A.indices.elemType.bits - 1) := by
  have h1 : A.getValueIndex p = toSigned A.indices.elemType.bits raw := by
    unfold DictionaryArray.getValueIndex
    rw [hp]
  obtain ⟨h2, h3⟩ := toSigned_range _ raw (IndexWidth.bits_pos A.indices.elemType) hw
  refine ⟨h1, ?_, ?_, ?_⟩ <;> rw [h1]
  · exact toSigned_emod _ raw hw
  · exact h2
  · exact h3

/-- Claim C5 witness: an 8-bit array storing raw byte 255 at position 0 has
`GetValueIndex 0 = -1`: the sign is preserved by the widening. -/
theorem getValueIndex_signExtend_witness :
    (255 : Nat) < 2 ^ IndexWidth.w8.bits ∧
      (⟨⟨.w8, 0, false⟩, ⟨.w8, [some 255]⟩, ⟨1, 0, [some 7]⟩⟩ :
          DictionaryArray).getValueIndex 0 = toSigned 8 255 ∧
      (⟨⟨.w8, 0, false⟩, ⟨.w8, [some 255]⟩, ⟨1, 0, [some 7]⟩⟩ :
          DictionaryArray).getValueIndex 0 % (2 : Int) ^ 8 = (255 : Nat) ∧
      -((2 : Int) ^ (8 - 1)) ≤ (⟨⟨.w8, 0, false⟩, ⟨.w8, [some 255]⟩, ⟨1, 0, [some 7]⟩⟩ :
          DictionaryArray).getValueIndex 0 ∧
      (⟨⟨.w8, 0, false⟩, ⟨.w8, [some 255]⟩, ⟨1, 0, [some 7]⟩⟩ :
          DictionaryArray).getValueIndex 0 < (2 : Int) ^ (8 - 1) :=
  ⟨by decide,
    getValueIndex_signExtend ⟨⟨.w8, 0, false⟩, ⟨.w8, [some 255]⟩, ⟨1, 0, [some 7]⟩⟩
      0 255 (by decide) (by decide)⟩

/-- Claim C7: `Transpose` never mutates the source array, and when the
buffer allocation fails it surfaces the allocation error (no result array
is produced). -/
theorem transpose_frame (A : DictionaryArray) (newType : DictionaryType)
    (newDict : DictArrayObj) (M : List Int) (pool : Bool) :
    (transpose A newType newDict M pool).2 = A ∧
      (pool = false →
        (transpose A newType newDict M pool).1 = .error .outOfMemory) := by
  unfold transpose
  cases pool <;> simp

/-- Claim C7 witness: with a failing pool on a concrete array, the source
comes back unchanged and the call reports `outOfMemory`. -/
theorem transpose_frame_witness :
    (transpose ⟨⟨.w8, 0, false⟩, ⟨.w8, [some 0]⟩, ⟨0, 0, [some 7]⟩⟩
        ⟨.w8, 0, false⟩ ⟨2, 0, [some 7]⟩ [0] false).2 =
      ⟨⟨.w8, 0, false⟩, ⟨.w8, [some 0]⟩, ⟨0, 0, [some 7]⟩⟩ ∧
    (transpose ⟨⟨.w8, 0, false⟩, ⟨.w8, [some 0]⟩, ⟨0, 0, [some 7]⟩⟩
        ⟨.w8, 0, false⟩ ⟨2, 0, [some 7]⟩ [0] false).1 = .error .outOfMemory :=
  ⟨(transpose_frame ⟨⟨.w8, 0, false⟩, ⟨.w8, [some 0]⟩, ⟨0, 0, [some 7]⟩⟩
      ⟨.w8, 0, false⟩ ⟨2, 0, [some 7]⟩ [0] false).1,
    (transpose_frame ⟨⟨.w8, 0, false⟩, ⟨.w8, [some 0]⟩, ⟨0, 0, [some 7]⟩⟩
      ⟨.w8, 0, false⟩ ⟨2, 0, [some 7]⟩ [0] false).2 rfl⟩

/-- Claim C2: on a valid source and a transpose map covering the source
dictionary, a successful `Transpose` preserves the length, keeps every null
position null, and writes `transposeMap[indices[p]]`, converted to the
result's declared index width, at every non-null position `p`. -/
theorem transpose_behavior (A : DictionaryArray) (newType : DictionaryType)
    (newDict : DictArrayObj) (M : List Int)
    (hv : A.valid) (hM : M.length = A.dict.vals.length) :
    ∃ R, (transpose A newType newDict M true).1 = .ok R ∧
      R.indices.cells.length = A.indices.cells.length ∧
      R.dictType = newType ∧ R.dict = newDict ∧
      R.indices.elemType = newType.indexType ∧
      (∀ p : Nat, A.indices.cells[p]? = some none → R.indices.cells[p]? = some none) ∧
      (∀ (p raw : Nat), A.indices.cells[p]? = some (some raw) →
        ∃ j : Nat, toSigned A.indices.elemType.bits raw = (j : Int) ∧ j < M.length ∧
          R.indices.cells[p]? =
            some (some (toRaw newType.indexType.bits (M.getD j 0)))) := by
  refine ⟨transposePure A newType newDict M, rfl, ?_, rfl, rfl, rfl, ?_, ?_⟩
  · simp [transposePure]
  · intro p hp
    simp only [transposePure]
    rw [List.getElem?_map, hp]
    rfl
  · intro p raw hp
    obtain ⟨-, -, hall⟩ := hv
    have hmem : some raw ∈ A.indices.cells := List.getElem?_mem hp
    have hcell := List.all_eq_true.mp hall _ hmem
    simp only [cellOK, Bool.and_eq_true, decide_eq_true_eq] at hcell
    obtain ⟨⟨hr, h0⟩, hlen⟩ := hcell
    refine ⟨(toSigned A.indices.elemType.bits raw).toNat,
      (Int.toNat_of_nonneg h0).symm, ?_, ?_⟩
    · rw [hM]
      omega
    · simp only [transposePure]
      rw [List.getElem?_map, hp]
      rfl

/-- Claim C2 witness: transposing `[1, null, 0]` (8-bit) with map `[1, 2]`
to a 16-bit type over a 3-element dictionary has all the stated
properties. -/
theorem transpose_behavior_witness :
    ∃ R, (transpose ⟨⟨.w8, 0, false⟩, ⟨.w8, [some 1, none, some 0]⟩, ⟨0, 0, [some 7, some 8]⟩⟩
        ⟨.w16, 1, false⟩ ⟨5, 1, [some 9, some 7, some 8]⟩ [1, 2] true).1 = .ok R ∧
      R.indices.cells.length = ([some 1, none, some 0] : List (Option Nat)).length ∧
      R.dictType = ⟨.w16, 1, false⟩ ∧ R.dict = ⟨5, 1, [some 9, some 7, some 8]⟩ ∧
      R.indices.elemType = IndexWidth.w16 ∧
      (∀ p : Nat, ([some 1, none, some 0] : List (Option Nat))[p]? = some none →
        R.indices.cells[p]? = some none) ∧
      (∀ (p raw : Nat), ([some 1, none, some 0] : List (Option Nat))[p]? = some (some raw) →
        ∃ j : Nat, toSigned IndexWidth.w8.bits raw = (j : Int) ∧ j < ([1, 2] : List Int).length ∧
          R.indices.cells[p]? =
            some (some (toRaw IndexWidth.w16.bits (([1, 2] : List Int).getD j 0)))) :=
  transpose_behavior ⟨⟨.w8, 0, false⟩, ⟨.w8, [some 1, none, some 0]⟩, ⟨0, 0, [some 7, some 8]⟩⟩
    ⟨.w16, 1, false⟩ ⟨5, 1, [some 9, some 7, some 8]⟩ [1, 2] (by decide) (by decide)

/-- Claim C6: transposing a valid array with the identity map over its own
dictionary, at the same index width, reproduces the source's index cells
exactly (in particular all non-null index values are unchanged). -/
theorem transpose_identity_map (A : DictionaryArray) (newType : DictionaryType)
    (hv : A.valid) (hw : newType.indexType = A.indices.elemType) :
    ∃ R, (transpose A newType A.dict
        ((List.range A.dict.vals.length).map Int.ofNat) true).1 = .ok R ∧
      R.indices.cells = A.indices.cells := by
  refine ⟨transposePure A newType A.dict ((List.range A.dict.vals.length).map Int.ofNat),
    rfl, ?_⟩
  simp only [transposePure]
  obtain ⟨-, -, hall⟩ := hv
  rw [List.map_congr_left, List.map_id]
  intro c hc
  cases c with
  | none => rfl
  | some raw =>
      have hcell := List.all_eq_true.mp hall _ hc
      simp only [cellOK, Bool.and_eq_true, decide_eq_true_eq] at hcell
      obtain ⟨⟨hr, h0⟩, hlen⟩ := hcell
      have hj : ((toSigned A.indices.elemType.bits raw).toNat : Int) =
          toSigned A.indices.elemType.bits raw := Int.toNat_of_nonneg h0
      have hjlt : (toSigned A.indices.elemType.bits raw).toNat < A.dict.vals.length := by
        omega
      show some (toRaw newType.indexType.bits
          (((List.range A.dict.vals.length).map Int.ofNat).getD
            (toSigned A.indices.elemType.bits raw).toNat 0)) = id (some raw)
      rw [List.getD_eq_getElem?_getD, List.getElem?_map, List.getElem?_range hjlt]
      simp only [Option.map_some', Option.getD_some]
      rw [hw]
      rw [show (Int.ofNat (toSigned A.indices.elemType.bits raw).toNat) =
        toSigned A.indices.elemType.bits raw from hj]
      rw [toRaw_toSigned _ raw hr]
      rfl

/-- Claim C6 witness: identity-transposing `[1, null, 0]` over its own
2-element dictionary at the same width returns the cells unchanged. -/
theorem transpose_identity_map_witness :
    ∃ R, (transpose ⟨⟨.w8, 0, false⟩, ⟨.w8, [some 1, none, some 0]⟩, ⟨0, 0, [some 7, some 8]⟩⟩
        ⟨.w8, 0, true⟩ ⟨0, 0, [some 7, some 8]⟩ ((List.range 2).map Int.ofNat) true).1 = .ok R ∧
      R.indices.cells = [some 1, none, some 0] :=
  transpose_identity_map
    ⟨⟨.w8, 0, false⟩, ⟨.w8, [some 1, none, some 0]⟩, ⟨0, 0, [some 7, some 8]⟩⟩
    ⟨.w8, 0, true⟩ (by decide) (by decide)

/-- Claim C4: `CanCompareIndices` is true exactly when the index integer
types agree and either the dictionaries are the identical shared object or
one is element-wise identical to a prefix of the other (element-wise
identity includes the value type); in particular it is reflexive, false on
differing index widths, and false when the dictionaries are distinct
objects and neither is a prefix of the other. -/
theorem canCompareIndices_spec :
    (∀ A B : DictionaryArray, canCompareIndices A B = true ↔
      (A.dictType.indexType = B.dictType.indexType ∧
        (A.dict.oid = B.dict.oid ∨
          (A.dict.valueType = B.dict.valueType ∧
            (List.isPrefixOf A.dict.vals B.dict.vals = true ∨
              List.isPrefixOf B.dict.vals A.dict.vals = true))))) ∧
    (∀ A : DictionaryArray, canCompareIndices A A = true) ∧
    (∀ A B : DictionaryArray, A.dictType.indexType ≠ B.dictType.indexType →
      canCompareIndices A B = false) ∧
    (∀ A B : DictionaryArray, A.dict.oid ≠ B.dict.oid →
      List.isPrefixOf A.dict.vals B.dict.vals = false →
      List.isPrefixOf B.dict.vals A.dict.vals = false →
      canCompareIndices A B = false) := by
  refine ⟨?_, ?_, ?_, ?_⟩
  · intro A B
    simp [canCompareIndices, dictDelta]
  · intro A
    simp [canCompareIndices]
  · intro A B h
    simp [canCompareIndices, h]
  · intro A B h1 h2 h3
    simp [canCompareIndices, dictDelta, h1, h2, h3]

/-- Claim C4 witness: a concrete array compared with itself is comparable;
changing only the index width makes it incomparable; distinct dictionaries
with no prefix relation make it incomparable. -/
theorem canCompareIndices_spec_witness :
    canCompareIndices ⟨⟨.w8, 0, false⟩, ⟨.w8, [some 0]⟩, ⟨0, 0, [some 7, some 8]⟩⟩
        ⟨⟨.w8, 0, false⟩, ⟨.w8, [some 0]⟩, ⟨0, 0, [some 7, some 8]⟩⟩ = true ∧
      canCompareIndices ⟨⟨.w8, 0, false⟩, ⟨.w8, [some 0]⟩, ⟨0, 0, [some 7, some 8]⟩⟩
        ⟨⟨.w16, 0, false⟩, ⟨.w16, [some 0]⟩, ⟨0, 0, [some 7, some 8]⟩⟩ = false ∧
      canCompareIndices ⟨⟨.w8, 0, false⟩, ⟨.w8, [some 0]⟩, ⟨0, 0, [some 7, some 8]⟩⟩
        ⟨⟨.w8, 0, false⟩, ⟨.w8, [some 0]⟩, ⟨1, 0, [some 9, some 8]⟩⟩ = false :=
  ⟨canCompareIndices_spec.2.1 ⟨⟨.w8, 0, false⟩, ⟨.w8, [some 0]⟩, ⟨0, 0, [some 7, some 8]⟩⟩,
    canCompareIndices_spec.2.2.1 ⟨⟨.w8, 0, false⟩, ⟨.w8, [some 0]⟩, ⟨0, 0, [some 7, some 8]⟩⟩
      ⟨⟨.w16, 0, false⟩, ⟨.w16, [some 0]⟩, ⟨0, 0, [some 7, some 8]⟩⟩ (by decide),
    canCompareIndices_spec.2.2.2 ⟨⟨.w8, 0, false⟩, ⟨.w8, [some 0]⟩, ⟨0, 0, [some 7, some 8]⟩⟩
      ⟨⟨.w8, 0, false⟩, ⟨.w8, [some 0]⟩, ⟨1, 0, [some 9, some 8]⟩⟩
      (by decide) (by decide) (by decide)⟩

/-- Claim C10: `CanCompareIndices` is symmetric. -/
theorem canCompareIndices_symm (A B : DictionaryArray) :
    canCompareIndices A B = canCompareIndices B A := by
  have e1 : (A.dictType.indexType = B.dictType.indexType) ↔
      (B.dictType.indexType = A.dictType.indexType) := eq_comm
  have e2 : (A.dict.oid = B.dict.oid) ↔ (B.dict.oid = A.dict.oid) := eq_comm
  have e3 : (A.dict.valueType = B.dict.valueType) ↔
      (B.dict.valueType = A.dict.valueType) := eq_comm
  unfold canCompareIndices dictDelta
  rw [decide_eq_decide.mpr e1, decide_eq_decide.mpr e2, decide_eq_decide.mpr e3,
    Bool.or_comm (List.isPrefixOf A.dict.vals B.dict.vals)
      (List.isPrefixOf B.dict.vals A.dict.vals)]

/-- Claim C8: the first `dictionary()` call on an instance with an empty
cache materializes the wrapper from the internal data block and stores it in
the cache; a call on an instance with a filled cache returns exactly the
cached object and leaves the state unchanged; hence every call after the
first returns the identical object without re-deriving it. -/
theorem dictionary_lazy_cached :
    (∀ s : DictInstState, s.cache = none →
      (dictionaryCall s).1 = materializeDict s ∧
        (dictionaryCall s).2 = { s with cache := some (materializeDict s) }) ∧
    (∀ (s : DictInstState) (d : DictArrayObj), s.cache = some d →
      dictionaryCall s = (d, s)) ∧
    (∀ s : DictInstState,
      dictionaryCall (dictionaryCall s).2 = ((dictionaryCall s).1, (dictionaryCall s).2)) := by
  refine ⟨?_, ?_, ?_⟩
  · intro s h
    simp [dictionaryCall, h]
  · intro s d h
    simp [dictionaryCall, h]
  · intro s
    rcases hc : s.cache with - | d <;> simp [dictionaryCall, hc]

/-- Claim C8 witness: on a fresh instance the first call materializes and
caches the wrapper, and the second call returns the identical object with
the state unchanged. -/
theorem dictionary_lazy_cached_witness :
    (dictionaryCall ⟨⟨0, 0, [some 7]⟩, none⟩).1 = materializeDict ⟨⟨0, 0, [some 7]⟩, none⟩ ∧
      (dictionaryCall ⟨⟨0, 0, [some 7]⟩, none⟩).2 =
        ⟨⟨0, 0, [some 7]⟩, some ⟨0, 0, [some 7]⟩⟩ ∧
      dictionaryCall (dictionaryCall ⟨⟨0, 0, [some 7]⟩, none⟩).2 =
        ((dictionaryCall ⟨⟨0, 0, [some 7]⟩, none⟩).1,
          (dictionaryCall ⟨⟨0, 0, [some 7]⟩, none⟩).2) :=
  ⟨(dictionary_lazy_cached.1 ⟨⟨0, 0, [some 7]⟩, none⟩ rfl).1,
    (dictionary_lazy_cached.1 ⟨⟨0, 0, [some 7]⟩, none⟩ rfl).2,
    dictionary_lazy_cached.2.2 ⟨⟨0, 0, [some 7]⟩, none⟩⟩

/-- Claim C9: the deprecated `Status`-returning overloads of `FromArrays`
and `Transpose` are the canonical status/out-parameter presentation of the
`Result`-returning versions: same success domain, same output array, same
error kind. -/
theorem deprecated_overloads_equiv (ty : DictionaryType) (idx : IndicesArray)
    (dict : DictArrayObj) (pool : Bool) (A : DictionaryArray)
    (newType : DictionaryType) (newDict : DictArrayObj) (M : List Int) :
    fromArraysStatus ty idx dict = statusOfExcept (fromArrays ty idx dict) ∧
      transposeStatus pool A newType newDict M =
        statusOfExcept ((transpose A newType newDict M pool).1) := by
  constructor
  · simp only [fromArraysStatus, fromArrays]
    split_ifs <;> rfl
  · cases pool <;> rfl

end ArrowDict
